import Mathlib

/-!
Verification development for the Curve LP token solver
(`crates/solvers/src/domain/{solver/curve_lp.rs, curve/api.rs, curve/price_api.rs}`,
`crates/solvers/src/boundary/curve/interactions.rs`,
`crates/solvers/src/infra/config/curve_lp.rs`).

Machine integers are modelled as `Nat` with explicit wrapping (`% 2^256`) or
saturation where the Rust code uses wrapping/saturating operations.  Strings
are modelled as `List Char`.  Fallible Rust functions returning `Result` are
modelled with `Except`; a Rust panic branch is modelled as `Option.none`.
-/

namespace CurveLp

/-- `2^256`, the size of the `U256` value space (alloy `U256`). -/
def u256Bound : Nat := 2 ^ 256

/-- `U256::MAX`. -/
def u256Max : Nat := u256Bound - 1

/-- `u32::MAX`. -/
def u32Max : Nat := 2 ^ 32 - 1

/-- `2^64`, the size of the `u64` value space. -/
def u64Bound : Nat := 2 ^ 64

/-- Wrapping `U256` multiplication (release-mode semantics of `*` on `U256`). -/
def wmul (a b : Nat) : Nat := a * b % u256Bound

/-- Wrapping `U256` addition (release-mode semantics of `+` on `U256`). -/
def wadd (a b : Nat) : Nat := (a + b) % u256Bound

/-- Saturating `U256` multiplication (`U256::saturating_mul`). -/
def satMul (a b : Nat) : Nat := min (a * b) u256Max

/-- Wrapping `U256` power of ten: `U256::from(10u64).pow(d)`. -/
def wpow10 (d : Nat) : Nat := 10 ^ d % u256Bound

/-! ## Decimal digit strings

`toDec` models Rust's `u256.to_string()` / `format!("{}", n)` decimal
rendering; it is written with explicit fuel so that it is structurally
recursive and evaluates inside the kernel. -/

/-- The decimal digit character for `n % 10` (as in core's digit table). -/
def digitChar (n : Nat) : Char :=
  match n with
  | 0 => '0' | 1 => '1' | 2 => '2' | 3 => '3' | 4 => '4'
  | 5 => '5' | 6 => '6' | 7 => '7' | 8 => '8' | 9 => '9'
  | _ => '*'

/-- Numeric value of a decimal digit character. -/
def charDigitVal (c : Char) : Nat := c.toNat - 48

/-- Fuel-driven core of decimal rendering, most significant digit first. -/
def toDecCore : Nat → Nat → List Char → List Char
  | 0, _, acc => acc
  | fuel + 1, n, acc =>
    let d := digitChar (n % 10)
    if n / 10 = 0 then d :: acc else toDecCore fuel (n / 10) (d :: acc)

/-- Decimal rendering of a natural number (`n.to_string()` in the source). -/
def toDec (n : Nat) : List Char := toDecCore (n + 1) n []

/-- Value of a most-significant-digit-first decimal digit string. -/
def digitsVal (l : List Char) : Nat := l.foldl (fun a c => a * 10 + charDigitVal c) 0

/-- Model of `str::parse::<U256>()` restricted to plain decimal literals:
the digits must be non-empty, all ASCII decimal digits, and the value must fit
in 256 bits (alloy additionally accepts `0x`/`0o`/`0b`-prefixed literals,
which never arise in the inputs considered in this development). -/
def u256FromStr (l : List Char) : Option Nat :=
  if l.isEmpty then none
  else if l.all Char.isDigit then
    let v := digitsVal l
    if v < u256Bound then some v else none
  else none

/-- `format!("{:0>width$}", n, width = d)`: left-pad with `'0'` to width `d`
(a longer string is kept as is). -/
def leftPad (width : Nat) (l : List Char) : List Char :=
  List.replicate (width - l.length) '0' ++ l

/-- `str::trim_end_matches('0')`. -/
def trimZeros (l : List Char) : List Char :=
  (l.reverse.dropWhile (fun c => c = '0')).reverse

/-- `str::split('.')`: split on **every** `'.'`; always returns at least one
(possibly empty) segment. -/
def splitDot : List Char → List (List Char)
  | [] => [[]]
  | c :: rest =>
    if c = '.' then [] :: splitDot rest
    else
      match splitDot rest with
      | [] => [[c]]
      | p :: ps => (c :: p) :: ps

/-! ## Amount codec (`api.rs`, `Client::format_amount` / `Client::parse_amount`) -/

/-- Error type of the route-oracle client (`api::Error`); the human-readable
message payloads of the Rust variants are elided, the variants themselves are
kept. -/
inductive ApiError
  | network
  | api
  | parse
  | invalidRoute
  deriving DecidableEq, Repr

/-- `Client::format_amount` (api.rs:157): convert a wei amount to a
human-readable decimal string.  In the source `decimals : u8`. -/
def format_amount (amount : Nat) (decimals : Nat) : List Char :=
  let divisor := wpow10 decimals
  let whole := amount / divisor
  let remainder := amount % divisor
  if remainder = 0 then toDec whole
  else toDec whole ++ '.' :: trimZeros (leftPad decimals (toDec remainder))

/-- `Client::parse_amount` (api.rs:175): parse a decimal string amount to wei.
`split('.')` keeps every segment; only segments 0 and 1 are consulted. -/
def parse_amount (s : List Char) (decimals : Nat) : Except ApiError Nat :=
  let parts := splitDot s
  match u256FromStr (parts.headD []) with
  | none => .error .parse
  | some whole =>
    let multiplier := wpow10 decimals
    let fractional : Except ApiError Nat :=
      if parts.length > 1 then
        let fracStr := parts.getD 1 []
        if fracStr.length > decimals then
          match u256FromStr (fracStr.take decimals) with
          | none => .error .parse
          | some fv => .ok fv
        else
          match u256FromStr fracStr with
          | none => .error .parse
          | some fv => .ok (wmul fv (wpow10 (decimals - fracStr.length)))
      else .ok 0
    match fractional with
    | .error e => .error e
    | .ok fv => .ok (wadd (wmul whole multiplier) fv)

/-! ## Route oracle client (`api.rs`, `Client::parse_route` / `Client::validate_route`)

Addresses are modelled as `Nat` values below `2^160`; the zero address is `0`.
Strings in the wire format are `List Char`. -/

/-- `args` of one oracle route step (`RouteArgs` in api.rs): `swapParams` is a
list of signed 64-bit integers. -/
structure RouteArgs where
  poolId : List Char
  swapAddress : List Char
  swapParams : List Int
  poolAddress : List Char

/-- One step of an oracle route option (`RouteStep` in api.rs). -/
structure RouteStep where
  tokenIn : List (List Char)
  tokenOut : List (List Char)
  args : RouteArgs

/-- One oracle route option (`RouteOption` in api.rs). -/
structure RouteOption where
  amountOut : List Char
  route : List RouteStep

/-- The normalized fixed-shape route (`api::Route`): 11 path addresses,
a 5×5 table of unsigned 64-bit swap parameters, 5 pool addresses, and the
expected output amount. -/
structure Route where
  route : List Nat
  swap_params : List (List Nat)
  pools : List Nat
  expected_output : Nat
  deriving DecidableEq, Repr

/-- Value of one hexadecimal digit character. -/
def hexDigitVal (c : Char) : Option Nat :=
  if '0' ≤ c ∧ c ≤ '9' then some (c.toNat - 48)
  else if 'a' ≤ c ∧ c ≤ 'f' then some (c.toNat - 87)
  else if 'A' ≤ c ∧ c ≤ 'F' then some (c.toNat - 55)
  else none

/-- Value of a hexadecimal digit string (`none` on any non-hex character). -/
def hexVal (l : List Char) : Option Nat :=
  l.foldl
    (fun acc c =>
      match acc, hexDigitVal c with
      | some a, some v => some (a * 16 + v)
      | _, _ => none)
    (some 0)

/-- Model of `str::parse::<Address>()` (alloy): an optional `0x` prefix
followed by exactly 40 hexadecimal digits. -/
def addrFromStr (s : List Char) : Option Nat :=
  let digits := if s.take 2 = ['0', 'x'] then s.drop 2 else s
  if digits.length = 40 then hexVal digits else none

/-- The literal zero-address string compared against `pool_address`
(api.rs:269). -/
def zeroAddrLiteral : List Char := "0x0000000000000000000000000000000000000000".toList

/-- `param as u64` for `param : i64`: two's-complement cast, i.e. the value
modulo `2^64`. -/
def i64CastU64 (p : Int) : Nat := (p.emod (2 ^ 64 : Nat)).toNat

/-- The swap-params inner loop of `parse_route` (api.rs:261-265): for each
`(j, param)` with `j < 5`, store `param as u64` into row `i` of the table.
No entry is ever rejected. -/
def fillSwapParams (table : List (List Nat)) (i : Nat) (ps : List Int) :
    List (List Nat) :=
  ps.enum.foldl
    (fun tb jp =>
      if jp.1 < 5 then tb.set i ((tb.getD i []).set jp.1 (i64CastU64 jp.2))
      else tb)
    table

/-- The body of `parse_route`'s per-step loop (api.rs:231-277) for step index
`i`: parse `token_in[0]` (if present), the swap address, `token_out[0]` (if
present), fill the swap-params row, and parse a non-empty non-zero
`pool_address`. -/
def parse_route_step (i : Nat) (step : RouteStep)
    (route : List Nat) (swapParams : List (List Nat)) (pools : List Nat) :
    Except ApiError (List Nat × List (List Nat) × List Nat) :=
  let r1 : Except ApiError (List Nat) :=
    match step.tokenIn.head? with
    | some s =>
      match addrFromStr s with
      | some a => .ok (route.set (i * 2) a)
      | none => .error .parse
    | none => .ok route
  match r1 with
  | .error e => .error e
  | .ok route =>
    match addrFromStr step.args.swapAddress with
    | none => .error .parse
    | some swapAddr =>
      let route := route.set (i * 2 + 1) swapAddr
      let r2 : Except ApiError (List Nat) :=
        match step.tokenOut.head? with
        | some s =>
          match addrFromStr s with
          | some a => .ok (route.set (i * 2 + 2) a)
          | none => .error .parse
        | none => .ok route
      match r2 with
      | .error e => .error e
      | .ok route =>
        let swapParams := fillSwapParams swapParams i step.args.swapParams
        if step.args.poolAddress ≠ [] ∧ step.args.poolAddress ≠ zeroAddrLiteral then
          match addrFromStr step.args.poolAddress with
          | none => .error .parse
          | some a => .ok (route, swapParams, pools.set i a)
        else .ok (route, swapParams, pools)

/-- The step loop of `parse_route`: iterate the steps in order, stopping
(without error) as soon as the index reaches 5. -/
def parse_route_steps : Nat → List RouteStep →
    List Nat → List (List Nat) → List Nat →
    Except ApiError (List Nat × List (List Nat) × List Nat)
  | _, [], route, sp, pools => .ok (route, sp, pools)
  | i, step :: rest, route, sp, pools =>
    if i ≥ 5 then .ok (route, sp, pools)
    else
      match parse_route_step i step route sp pools with
      | .error e => .error e
      | .ok (route', sp', pools') => parse_route_steps (i + 1) rest route' sp' pools'

/-- `Client::validate_route` (api.rs:117): the route must start with the sell
token, have a non-all-zero first swap-params row, and its last non-zero
address must be the buy token.  The message payloads of `InvalidRoute` are
elided. -/
def validate_route (route : List Nat) (swapParams : List (List Nat))
    (tokenIn tokenOut : Nat) : Except ApiError Unit :=
  if route.getD 0 0 ≠ tokenIn then .error .invalidRoute
  else if (swapParams.getD 0 []).all (fun p => decide (p = 0)) then .error .invalidRoute
  else if ((route.reverse.find? (fun a => decide (a ≠ 0))).getD 0) ≠ tokenOut then
    .error .invalidRoute
  else .ok ()

/-- `Client::parse_route` (api.rs:210): take the first route option, parse its
output amount, run the step loop from zero-initialised fixed-shape arrays
(`[Address::ZERO; 11]`, `[[0u64; 5]; 5]`, `[Address::ZERO; 5]`, written out
literally here), and validate. -/
def parse_route (response : List RouteOption) (tokenIn tokenOut : Nat)
    (tokenOutDecimals : Nat) : Except ApiError Route :=
  match response.head? with
  | none => .error .parse
  | some routeOption =>
    match parse_amount routeOption.amountOut tokenOutDecimals with
    | .error e => .error e
    | .ok expectedOutput =>
      match
        parse_route_steps 0 routeOption.route
          [0, 0, 0, 0, 0, 0, 0, 0, 0, 0, 0]
          [[0, 0, 0, 0, 0], [0, 0, 0, 0, 0], [0, 0, 0, 0, 0], [0, 0, 0, 0, 0],
            [0, 0, 0, 0, 0]]
          [0, 0, 0, 0, 0]
      with
      | .error e => .error e
      | .ok (route, swapParams, pools) =>
        match validate_route route swapParams tokenIn tokenOut with
        | .error e => .error e
        | .ok _ => .ok ⟨route, swapParams, pools, expectedOutput⟩

/-! ## Price oracle client (`price_api.rs`, `Client::get_eth_price`)

The two USD-price HTTP fetches and the binary floating-point conversion
`(token_usd / weth_usd) * 1e18` (with its finiteness, positivity and `2^128`
checks) are abstracted into a single `fetch` function: its result is the
already-converted `U256` outcome of the uncached path.  The cache is a map
from token address to `(price, fetched_at)`; `Instant::elapsed` is `now - t`
on a monotone clock in seconds; `CACHE_TTL` is 60 seconds.  The write-back
(`insert_cache`) only mutates the cache and is not modelled, as no claim
depends on it. -/

/-- Error type of the price client (`price_api::Error`, payloads elided). -/
inductive PriceError
  | network
  | api
  | parse
  deriving DecidableEq, Repr

/-- `Client::cached_price` (price_api.rs:135): return the cached price when
its age is at most the 60-second TTL. -/
def cached_price (cache : Nat → Option (Nat × Nat)) (now : Nat) (token : Nat) :
    Option Nat :=
  match cache token with
  | some (price, fetchedAt) => if now - fetchedAt ≤ 60 then some price else none
  | none => none

/-- `Client::get_eth_price` (price_api.rs:63): serve from the TTL cache when
fresh, otherwise run the uncached fetch-and-convert path (abstracted as
`fetch`). -/
def get_eth_price (fetch : Nat → Except PriceError Nat)
    (cache : Nat → Option (Nat × Nat)) (now : Nat) (token : Nat) :
    Except PriceError Nat :=
  match cached_price cache now token with
  | some price => .ok price
  | none => fetch token

/-! ## Solver domain model (`curve_lp.rs`, `interactions.rs`)

Only the fields the per-order pipeline reads are modelled. -/

/-- `order::Side`. -/
inductive Side
  | sell
  | buy
  deriving DecidableEq, Repr

/-- `eth::Asset`: a token address paired with an amount. -/
structure Asset where
  token : Nat
  amount : Nat
  deriving DecidableEq, Repr

/-- `order::Order`, restricted to the fields the Curve LP solver reads
(`uid`, `side`, `sell`, `buy`; the opaque `wrappers` are omitted). -/
structure Order where
  uid : Nat
  side : Side
  sell : Asset
  buy : Asset
  deriving DecidableEq, Repr

/-- `solution::Allowance`. -/
structure Allowance where
  spender : Nat
  asset : Asset
  deriving DecidableEq, Repr

/-- Symbolic form of `router::encode_exchange`'s calldata: the ABI byte
encoding is injective in these arguments, so the call is modelled by the
argument tuple itself. -/
structure ExchangeCall where
  route : Route
  amount : Nat
  minDy : Nat
  receiver : Nat
  deriving DecidableEq, Repr

/-- `solution::CustomInteraction` as built by the Curve LP solver. -/
structure CustomInteraction where
  target : Nat
  value : Nat
  calldata : ExchangeCall
  internalize : Bool
  inputs : List Asset
  outputs : List Asset
  allowances : List Allowance
  deriving DecidableEq, Repr

/-- `router::ROUTER_ADDRESS`: the Curve router contract address (mainnet v1.2). -/
def ROUTER_ADDRESS : Nat := 0x45312ea0eFf7E09C83CBE249fa1d7598c4C8cd4e

/-- `interactions::build_exchange_interaction` (interactions.rs:11): package
the exchange call into a directive with one input, one output and one
allowance, `value = 0`, `internalize = false`. -/
def build_exchange_interaction (route : Route) (sellToken sellAmount buyToken
    minOutput receiver : Nat) : CustomInteraction :=
  { target := ROUTER_ADDRESS
    value := 0
    calldata := { route := route, amount := sellAmount, minDy := minOutput,
                  receiver := receiver }
    internalize := false
    inputs := [{ token := sellToken, amount := sellAmount }]
    outputs := [{ token := buyToken, amount := minOutput }]
    allowances := [{ spender := ROUTER_ADDRESS,
                     asset := { token := sellToken, amount := sellAmount } }] }

/-- `solution::Solution` as far as the Curve LP solver populates it: the
originating order, the input/output assets, the single custom interaction,
the gas estimate, the fee in sell-token units, and the auction-scoped id.
Modelled from the spec: `solution::Single::into_solution` and
`Solution::with_id` live in `domain/solution.rs`, which is not part of the
sources; per spec §3 a Solution wraps the directive together with the
originating order, a gas estimate, a fee in the sell token, and a monotonic
id scoped to the auction. -/
structure Solution where
  id : Nat
  order : Order
  input : Asset
  output : Asset
  interaction : CustomInteraction
  gas : Nat
  fee : Nat
  deriving DecidableEq, Repr

/-- `solution::Single` (the pre-`into_solution` bundle built in
`solve_order`); `wrappers` omitted as for `Order`. -/
structure Single where
  order : Order
  input : Asset
  output : Asset
  interaction : CustomInteraction
  gas : Nat
  deriving DecidableEq, Repr

/-- Modelled from the spec: `Single::into_solution(fee)` (domain/solution.rs,
not in the sources) wraps the single-order bundle and the fee into a
Solution, preserving the originating order; it can refuse the assembled
solution (`SolutionConstruction`), which is abstracted by the Boolean
`accepted`. The id is attached later by `with_id`. -/
def into_solution (single : Single) (fee : Nat) (accepted : Bool) :
    Option Solution :=
  if accepted then
    some { id := 0, order := single.order, input := single.input,
           output := single.output, interaction := single.interaction,
           gas := single.gas, fee := fee }
  else none

/-- Modelled from the spec: `Solution::with_id` (domain/solution.rs, not in
the sources) attaches the auction-scoped id, spec §4.F step 7. -/
def with_id (s : Solution) (i : Nat) : Solution := { s with id := i }

/-- `curve_lp::SolveError`; payloads are kept where a claim distinguishes
them (message strings elided). -/
inductive SolveError
  | apiErr (e : ApiError)
  | onchainVerification
  | quoteDeviation (apiOutput onchainOutput deviationBps : Nat)
  | insufficientOutput (minOutput required : Nat)
  | noPriceForSellToken
  | feeCalculation
  | solutionConstruction
  deriving DecidableEq, Repr

/-- `Inner::is_supported_order` (curve_lp.rs:175): sell side, sell token in
the LP-token whitelist, buy token in the allowed-buy-token whitelist.  The
`HashSet`s are modelled as lists with `contains` membership. -/
def is_supported_order (lpTokens allowedBuyTokens : List Nat) (order : Order) :
    Bool :=
  if order.side ≠ Side.sell then false
  else if ¬ lpTokens.contains order.sell.token then false
  else if ¬ allowedBuyTokens.contains order.buy.token then false
  else true

/-- `Inner::calculate_deviation_bps` (curve_lp.rs:321): `u32::MAX` when either
side is zero; otherwise `(larger - smaller).saturating_mul(10_000) / smaller`,
converted to `u32` saturating at `u32::MAX`. -/
def calculate_deviation_bps (a b : Nat) : Nat :=
  if a = 0 ∨ b = 0 then u32Max
  else
    let p := if a > b then (a, b) else (b, a)
    let diff := p.1 - p.2
    let bps := satMul diff 10000 / p.2
    if bps ≤ u32Max then bps else u32Max

/-- `Inner::apply_slippage` (curve_lp.rs:332):
`amount.saturating_mul(U256::from(10_000 - slippage_bps)) / 10_000`.
The `u32` subtraction `10_000 - slippage_bps` is evaluated first and panics
on underflow (debug) / is an arithmetic overflow bug (release); the panic
branch is modelled as `none`. -/
def apply_slippage (slippageBps : Nat) (amount : Nat) : Option Nat :=
  if slippageBps ≤ 10000 then
    some (satMul amount (10000 - slippageBps) / 10000)
  else none

/-- The per-order external environment of `Inner::solve_order`: the outcomes
of the route-oracle fetch (`api_client.get_route`), of the on-chain `get_dy`
cross-check (`verify_quote_onchain`), the auction's reference price for the
sell token (`tokens.reference_price`), the outcome of the price-client
fallback, the gas price, the gas estimate `Gas(350_000) + solution_gas_offset`
(whose `Gas + SignedGas` addition lives outside the sources), the external
`Price::ether_value` conversion, and `into_solution`'s acceptance. -/
structure OrderEnv where
  routeResult : Except ApiError Route
  onchainResult : Except Unit Nat
  refPrice : Option Nat
  priceResult : Except PriceError Nat
  gasPrice : Nat
  estimatedGas : Nat
  etherValue : Nat → Nat → Option Nat
  solutionAccepted : Bool

/-- The `let sell_token_price = match tokens.reference_price(..) ...`
expression of `solve_order` (curve_lp.rs:260-271): prefer the auction's
reference price, else the price-client fallback, whose failure becomes
`NoPriceForSellToken`. -/
def resolve_sell_token_price (refPrice : Option Nat)
    (priceResult : Except PriceError Nat) : Except SolveError Nat :=
  match refPrice with
  | some price => .ok price
  | none =>
    match priceResult with
    | .ok price => .ok price
    | .error _ => .error .noPriceForSellToken

/-- `Inner::solve_order` (curve_lp.rs:195), with the I/O steps replaced by
their recorded outcomes in `env`: oracle fetch, on-chain check, deviation
bound, slippage floor, limit-price admission, directive construction, price
resolution (auction reference price first, price-client fallback mapped to
`NoPriceForSellToken`), fee conversion, and solution construction.  The
result is `none` when `apply_slippage` hits its panic branch. -/
def solve_order (slippageBps maxQuoteDeviationBps settlementContract : Nat)
    (order : Order) (env : OrderEnv) : Option (Except SolveError Solution) :=
  match env.routeResult with
  | .error e => some (.error (.apiErr e))
  | .ok route =>
    match env.onchainResult with
    | .error _ => some (.error .onchainVerification)
    | .ok onchainOutput =>
      let deviationBps := calculate_deviation_bps route.expected_output onchainOutput
      if deviationBps > maxQuoteDeviationBps then
        some (.error (.quoteDeviation route.expected_output onchainOutput deviationBps))
      else
        match apply_slippage slippageBps onchainOutput with
        | none => none
        | some minOutput =>
          if minOutput < order.buy.amount then
            some (.error (.insufficientOutput minOutput order.buy.amount))
          else
            let interaction := build_exchange_interaction route order.sell.token
              order.sell.amount order.buy.token minOutput settlementContract
            let estimatedGas := env.estimatedGas
            match resolve_sell_token_price env.refPrice env.priceResult with
            | .error e => some (.error e)
            | .ok price =>
              match env.etherValue price (satMul estimatedGas env.gasPrice) with
              | none => some (.error .feeCalculation)
              | some feeInSellToken =>
                let single : Single :=
                  { order := order
                    input := { token := order.sell.token, amount := order.sell.amount }
                    output := { token := order.buy.token, amount := minOutput }
                    interaction := interaction
                    gas := estimatedGas }
                match into_solution single feeInSellToken env.solutionAccepted with
                | none => some (.error .solutionConstruction)
                | some sol => some (.ok sol)

/-- `solve_order` with the price-client fallback wired to the TTL-cached
`get_eth_price` of `price_api::Client` for the order's sell token, as at
curve_lp.rs:264-268 (the call site names the method `get_usd_price`, but
`price_api::Client` exposes `get_eth_price` as its only price accessor). -/
def solve_order_with_price_client (slippageBps maxQuoteDeviationBps
    settlementContract : Nat) (order : Order) (env : OrderEnv)
    (fetch : Nat → Except PriceError Nat) (cache : Nat → Option (Nat × Nat))
    (now : Nat) : Option (Except SolveError Solution) :=
  solve_order slippageBps maxQuoteDeviationBps settlementContract order
    { env with priceResult := get_eth_price fetch cache now order.sell.token }

/-- `Inner::solve` (curve_lp.rs:141): iterate the auction's orders in order
with their 0-based index, skip unsupported orders, skip failed orders, and
emit each successful solution tagged `with_id i`.  The per-order external
outcomes are supplied by `envOf`; the channel send is modelled as always
succeeding (the receiver is alive).  A panic in `solve_order` (the `none`
case) aborts the background task: nothing further is emitted. -/
def solve_loop (slippageBps maxQuoteDeviationBps settlementContract : Nat)
    (lpTokens allowedBuyTokens : List Nat) (envOf : Nat → OrderEnv) :
    Nat → List Order → List Solution
  | _, [] => []
  | i, order :: rest =>
    if is_supported_order lpTokens allowedBuyTokens order then
      match solve_order slippageBps maxQuoteDeviationBps settlementContract
          order (envOf i) with
      | none => []
      | some (.ok sol) =>
        with_id sol i ::
          solve_loop slippageBps maxQuoteDeviationBps settlementContract
            lpTokens allowedBuyTokens envOf (i + 1) rest
      | some (.error _) =>
        solve_loop slippageBps maxQuoteDeviationBps settlementContract
          lpTokens allowedBuyTokens envOf (i + 1) rest
    else
      solve_loop slippageBps maxQuoteDeviationBps settlementContract
        lpTokens allowedBuyTokens envOf (i + 1) rest

/-- The driver's per-auction entry (`Inner::solve` from index 0). -/
def solve_auction (slippageBps maxQuoteDeviationBps settlementContract : Nat)
    (lpTokens allowedBuyTokens : List Nat) (envOf : Nat → OrderEnv)
    (orders : List Order) : List Solution :=
  solve_loop slippageBps maxQuoteDeviationBps settlementContract lpTokens
    allowedBuyTokens envOf 0 orders

/-! ## Configuration (`infra/config/curve_lp.rs`) -/

/-- The deserialized TOML configuration (`config::curve_lp::Config`): the
deserializer accepts any `u32` for `slippage-bps` (default 100) and
`max-quote-deviation-bps` (default 50); `u32` values are modelled as `Nat`
below `2^32`. Only the numeric and whitelist fields are modelled; the URL
fields are opaque. -/
structure FileConfig where
  chainId : Nat
  lpTokens : List Nat
  allowedBuyTokens : List Nat
  slippageBps : Nat
  maxQuoteDeviationBps : Nat
  solutionGasOffset : Int
  settlementContract : Nat

/-- The solver configuration (`curve_lp::Config`) as produced by `load`
(config/curve_lp.rs:82): every field is passed through unchanged; in
particular no bound is enforced on `slippage_bps`. -/
structure SolverConfig where
  chainId : Nat
  lpTokens : List Nat
  allowedBuyTokens : List Nat
  slippageBps : Nat
  maxQuoteDeviationBps : Nat
  solutionGasOffset : Int
  settlementContract : Nat

/-- `config::curve_lp::load` (config/curve_lp.rs:66), after the TOML
deserialization succeeded: the field-by-field conversion into the solver
configuration. -/
def load_config (c : FileConfig) : SolverConfig :=
  { chainId := c.chainId
    lpTokens := c.lpTokens
    allowedBuyTokens := c.allowedBuyTokens
    slippageBps := c.slippageBps
    maxQuoteDeviationBps := c.maxQuoteDeviationBps
    solutionGasOffset := c.solutionGasOffset
    settlementContract := c.settlementContract }

/-! ## Concrete fixtures used by witnesses and counterexamples -/

/-- The deviation formula exactly as the claim states it: `u32::MAX` when
either side is zero, else `(max − min) · 10_000 / min` with saturating
multiplication and a final saturation at `u32::MAX`. -/
def deviation_spec (a b : Nat) : Nat :=
  if a = 0 ∨ b = 0 then u32Max
  else min (satMul (max a b - min a b) 10000 / min a b) u32Max

def tricryptoAddr : Nat := 0xf5f5B97624542D72A9E06f04804Bf81baA15e2B4

def usdtAddr : Nat := 0xdAC17F958D2ee523a2206206994597C13D831ec7

/-- A single-step oracle route option whose `swapParams` list starts with `k`
(the remaining entries are the test vector `[_, 0, 6, 30, 3]` of api.rs's
`test_parse_route`), used to exhibit how `parse_route` treats signed swap
parameters. -/
def negParamResponse (k : Int) : List RouteOption :=
  [{ amountOut := "1".toList,
     route := [{
       tokenIn := ["0xf5f5B97624542D72A9E06f04804Bf81baA15e2B4".toList],
       tokenOut := ["0xdAC17F958D2ee523a2206206994597C13D831ec7".toList],
       args := {
         poolId := "factory-tricrypto-1".toList,
         swapAddress := "0xf5f5B97624542D72A9E06f04804Bf81baA15e2B4".toList,
         swapParams := [k, 0, 6, 30, 3],
         poolAddress := "0x0000000000000000000000000000000000000000".toList } }] }]

/-- Concrete route fixture for exercising the slippage/limit-price gate
(spec scenario 4: on-chain output 1_000_000). -/
def c6Route : Route :=
  { route := [0, 0, 0, 0, 0, 0, 0, 0, 0, 0, 0]
    swap_params := [[1, 0, 6, 30, 3], [0, 0, 0, 0, 0], [0, 0, 0, 0, 0],
      [0, 0, 0, 0, 0], [0, 0, 0, 0, 0]]
    pools := [0, 0, 0, 0, 0]
    expected_output := 1000000 }

/-- Concrete sell order with limit 989_000 (spec scenario 4). -/
def c6Order : Order :=
  { uid := 7, side := Side.sell,
    sell := { token := 1, amount := 1000 },
    buy := { token := 2, amount := 989000 } }

/-- Concrete per-order environment for the slippage/limit-price gate. -/
def c6Env : OrderEnv :=
  { routeResult := .ok c6Route
    onchainResult := .ok 1000000
    refPrice := some 5
    priceResult := .error .parse
    gasPrice := 0
    estimatedGas := 0
    etherValue := fun _ _ => some 0
    solutionAccepted := true }

/-- Concrete route fixture for the price-fallback path. -/
def c3Route : Route :=
  { route := [0, 0, 0, 0, 0, 0, 0, 0, 0, 0, 0]
    swap_params := [[1, 0, 6, 30, 3], [0, 0, 0, 0, 0], [0, 0, 0, 0, 0],
      [0, 0, 0, 0, 0], [0, 0, 0, 0, 0]]
    pools := [0, 0, 0, 0, 0]
    expected_output := 1000000 }

/-- Concrete sell order with limit 1 for the price-fallback path. -/
def c3Order : Order :=
  { uid := 8, side := Side.sell,
    sell := { token := 11, amount := 1000 },
    buy := { token := 12, amount := 1 } }

/-- Concrete per-order environment with no auction reference price. -/
def c3Env : OrderEnv :=
  { routeResult := .ok c3Route
    onchainResult := .ok 1000000
    refPrice := none
    priceResult := .error .parse
    gasPrice := 0
    estimatedGas := 0
    etherValue := fun _ _ => some 0
    solutionAccepted := true }

/-- A price fetch that always fails (oracle unreachable). -/
def c3Fetch : Nat → Except PriceError Nat := fun _ => .error .network

/-- An empty price cache. -/
def c3Cache : Nat → Option (Nat × Nat) := fun _ => none

/-! ## Lemmas about decimal digit strings -/

theorem div10_lt {n : Nat} (h10 : n / 10 ≠ 0) : n / 10 < n := by
  rcases Nat.eq_zero_or_pos n with rfl | hn
  · simp at h10
  · exact Nat.div_lt_self hn (by norm_num)

theorem toDecCore_append (n : Nat) : ∀ (fuel : Nat) (acc : List Char), n < fuel →
    toDecCore fuel n acc = toDec n ++ acc := by
  induction n using Nat.strong_induction_on with
  | _ n ih =>
    intro fuel acc hfuel
    match fuel, hfuel with
    | fuel + 1, hfuel =>
      by_cases h10 : n / 10 = 0
      · simp [toDecCore, toDec, h10]
      · have hlt : n / 10 < n := div10_lt h10
        rw [toDecCore, if_neg h10, ih (n / 10) hlt fuel _ (by omega)]
        conv_rhs => rw [toDec, toDecCore, if_neg h10,
          ih (n / 10) hlt n _ (by omega)]
        simp

theorem toDec_eq (n : Nat) :
    toDec n = if n / 10 = 0 then [digitChar (n % 10)]
      else toDec (n / 10) ++ [digitChar (n % 10)] := by
  by_cases h10 : n / 10 = 0
  · simp [toDec, toDecCore, h10]
  · rw [toDec, toDecCore, if_neg h10, if_neg h10,
      toDecCore_append (n / 10) n _ (by have := div10_lt h10; omega)]

theorem digitChar_isDigit {d : Nat} (h : d < 10) : (digitChar d).isDigit = true := by
  interval_cases d <;> decide

theorem charDigitVal_digitChar {d : Nat} (h : d < 10) : charDigitVal (digitChar d) = d := by
  interval_cases d <;> decide

theorem toDec_all_digit (n : Nat) : ∀ c ∈ toDec n, c.isDigit = true := by
  induction n using Nat.strong_induction_on with
  | _ n ih =>
    rw [toDec_eq]
    by_cases h10 : n / 10 = 0
    · rw [if_pos h10]
      rintro c hc
      rcases List.mem_singleton.1 hc with rfl
      exact digitChar_isDigit (Nat.mod_lt _ (by norm_num))
    · rw [if_neg h10]
      intro c hc
      rcases List.mem_append.1 hc with h | h
      · exact ih (n / 10) (div10_lt h10) c h
      · rcases List.mem_singleton.1 h with rfl
        exact digitChar_isDigit (Nat.mod_lt _ (by norm_num))

theorem digitsVal_go (l : List Char) (a : Nat) :
    l.foldl (fun x c => x * 10 + charDigitVal c) a = a * 10 ^ l.length + digitsVal l := by
  induction l generalizing a with
  | nil => simp [digitsVal]
  | cons c t ih =>
    simp only [List.foldl_cons, digitsVal, List.length_cons]
    rw [ih (a * 10 + charDigitVal c), ih (0 * 10 + charDigitVal c)]
    ring

theorem digitsVal_append (a b : List Char) :
    digitsVal (a ++ b) = digitsVal a * 10 ^ b.length + digitsVal b := by
  rw [digitsVal, List.foldl_append, ← digitsVal, digitsVal_go]

theorem digitsVal_toDec (n : Nat) : digitsVal (toDec n) = n := by
  induction n using Nat.strong_induction_on with
  | _ n ih =>
    rw [toDec_eq]
    by_cases h10 : n / 10 = 0
    · rw [if_pos h10]
      have hn : n < 10 := by omega
      rw [show digitsVal [digitChar (n % 10)] = charDigitVal (digitChar (n % 10)) by
        simp [digitsVal]]
      rw [charDigitVal_digitChar (Nat.mod_lt _ (by norm_num))]
      omega
    · rw [if_neg h10, digitsVal_append, ih (n / 10) (div10_lt h10)]
      rw [show digitsVal [digitChar (n % 10)] = charDigitVal (digitChar (n % 10)) by
        simp [digitsVal]]
      rw [charDigitVal_digitChar (Nat.mod_lt _ (by norm_num))]
      simp
      omega

theorem toDec_ne_nil (n : Nat) : toDec n ≠ [] := by
  rw [toDec_eq]
  by_cases h10 : n / 10 = 0
  · rw [if_pos h10]; simp
  · rw [if_neg h10]; simp

theorem toDec_length_le {n d : Nat} (hn : n < 10 ^ d) (hd : 1 ≤ d) :
    (toDec n).length ≤ d := by
  induction n using Nat.strong_induction_on generalizing d with
  | _ n ih =>
    rw [toDec_eq]
    by_cases h10 : n / 10 = 0
    · rw [if_pos h10]; simpa using hd
    · rw [if_neg h10]
      have hd2 : 2 ≤ d := by
        by_contra h
        have hd1 : d = 1 := by omega
        subst hd1
        simp at hn
        omega
      have hdiv : n / 10 < 10 ^ (d - 1) := by
        rw [Nat.div_lt_iff_lt_mul (by norm_num)]
        calc n < 10 ^ d := hn
        _ = 10 ^ (d - 1) * 10 := by
            rw [← Nat.pow_succ]
            congr 1
            omega
      have := ih (n / 10) (div10_lt h10) hdiv (by omega)
      simp only [List.length_append, List.length_singleton]
      omega

theorem digitsVal_replicate_zero (k : Nat) : digitsVal (List.replicate k '0') = 0 := by
  induction k with
  | zero => simp [digitsVal]
  | succ k ih =>
    rw [List.replicate_succ, digitsVal, List.foldl_cons]
    rw [show ((0 : Nat) * 10 + charDigitVal '0') = 0 by decide]
    exact ih

theorem digitsVal_leftPad (d : Nat) (l : List Char) :
    digitsVal (leftPad d l) = digitsVal l := by
  rw [leftPad, digitsVal_append, digitsVal_replicate_zero]
  simp

theorem leftPad_length {d : Nat} {l : List Char} (h : l.length ≤ d) :
    (leftPad d l).length = d := by
  simp [leftPad]
  omega

theorem leftPad_all_digit {d : Nat} {l : List Char} (h : ∀ c ∈ l, c.isDigit = true) :
    ∀ c ∈ leftPad d l, c.isDigit = true := by
  intro c hc
  rcases List.mem_append.1 hc with h' | h'
  · rcases List.eq_of_mem_replicate h' with rfl
    decide
  · exact h c h'

theorem trimZeros_spec (l : List Char) :
    l = trimZeros l ++ List.replicate (l.length - (trimZeros l).length) '0' ∧
      (trimZeros l).length ≤ l.length := by
  have hdec := List.takeWhile_append_dropWhile (p := fun c => decide (c = '0')) (l := l.reverse)
  have hrev : l = (l.reverse.dropWhile (fun c => decide (c = '0'))).reverse ++
      (l.reverse.takeWhile (fun c => decide (c = '0'))).reverse := by
    conv_lhs => rw [← List.reverse_reverse l, ← hdec]
    rw [List.reverse_append]
  have htake : (l.reverse.takeWhile (fun c => decide (c = '0'))).reverse =
      List.replicate (l.reverse.takeWhile (fun c => decide (c = '0'))).length '0' := by
    rw [List.eq_replicate_iff]
    constructor
    · simp
    · intro b hb
      have := List.mem_takeWhile_imp (List.mem_reverse.1 hb)
      simpa using this
  constructor
  · have hlen : l.length = (trimZeros l).length +
        (l.reverse.takeWhile (fun c => decide (c = '0'))).length := by
      conv_lhs => rw [hrev]
      simp [trimZeros]
    rw [hlen]
    conv_lhs => rw [hrev, htake]
    rw [trimZeros]
    congr 1
    congr 1
    omega
  · have hlen : l.length = (trimZeros l).length +
        (l.reverse.takeWhile (fun c => decide (c = '0'))).length := by
      conv_lhs => rw [hrev]
      simp [trimZeros]
    omega

theorem trimZeros_subset (l : List Char) : ∀ c ∈ trimZeros l, c ∈ l := by
  intro c hc
  rw [trimZeros, List.mem_reverse] at hc
  have := (List.dropWhile_sublist (p := fun c => decide (c = '0')) (l := l.reverse)).mem hc
  exact List.mem_reverse.1 this

theorem splitDot_no_dot {l : List Char} (h : '.' ∉ l) : splitDot l = [l] := by
  induction l with
  | nil => rfl
  | cons c rest ih =>
    have hc : c ≠ '.' := fun hcc => h (hcc ▸ List.mem_cons_self _ _)
    have hrest : '.' ∉ rest := fun hr => h (List.mem_cons_of_mem _ hr)
    rw [splitDot, if_neg hc, ih hrest]

theorem splitDot_append_dot {a : List Char} (b : List Char) (h : '.' ∉ a) :
    splitDot (a ++ '.' :: b) = a :: splitDot b := by
  induction a with
  | nil => simp [splitDot]
  | cons c rest ih =>
    have hc : c ≠ '.' := fun hcc => h (hcc ▸ List.mem_cons_self _ _)
    have hrest : '.' ∉ rest := fun hr => h (List.mem_cons_of_mem _ hr)
    rw [List.cons_append, splitDot, if_neg hc, ih hrest]

theorem isDigit_ne_dot {c : Char} (h : c.isDigit = true) : c ≠ '.' := by
  rintro rfl
  exact absurd h (by decide)

theorem u256FromStr_digits {l : List Char} (hne : l ≠ [])
    (hdig : ∀ c ∈ l, c.isDigit = true) (hlt : digitsVal l < u256Bound) :
    u256FromStr l = some (digitsVal l) := by
  rw [u256FromStr, if_neg (by simpa using hne),
    if_pos (List.all_eq_true.2 hdig)]
  simp [hlt]

theorem pow10_lt_u256 {d : Nat} (hd : d ≤ 77) : (10 : Nat) ^ d < u256Bound := by
  calc (10 : Nat) ^ d ≤ 10 ^ 77 := Nat.pow_le_pow_right (by norm_num) hd
  _ < u256Bound := by norm_num [u256Bound]

theorem u256FromStr_toDec {n : Nat} (hn : n < u256Bound) :
    u256FromStr (toDec n) = some n := by
  rw [u256FromStr_digits (toDec_ne_nil _) (toDec_all_digit _)
    (by rw [digitsVal_toDec]; exact hn), digitsVal_toDec]

theorem dot_not_mem_toDec (n : Nat) : ('.' : Char) ∉ toDec n :=
  fun hmem => isDigit_ne_dot (toDec_all_digit _ _ hmem) rfl

/-- **C5.** Amount codec round-trip: for every `x : U256` and every
`d ∈ 0..=77`, `parse_amount (format_amount x d) d` succeeds and returns
exactly `x`. -/
theorem parse_format_amount_roundtrip (x d : Nat) (hx : x < u256Bound) (hd : d ≤ 77) :
    parse_amount (format_amount x d) d = .ok x := by
  have hpow : (10 : Nat) ^ d < u256Bound := pow10_lt_u256 hd
  have hw10 : wpow10 d = 10 ^ d := Nat.mod_eq_of_lt hpow
  have hpos : 0 < (10 : Nat) ^ d := Nat.pos_pow_of_pos _ (by norm_num)
  rw [format_amount]
  simp only [hw10]
  by_cases hrem : x % 10 ^ d = 0
  · rw [if_pos hrem]
    have hw : x / 10 ^ d < u256Bound := lt_of_le_of_lt (Nat.div_le_self _ _) hx
    rw [parse_amount, splitDot_no_dot (dot_not_mem_toDec _)]
    simp only [List.headD_cons, u256FromStr_toDec hw, List.length_singleton,
      gt_iff_lt, Nat.lt_irrefl, if_false]
    rw [hw10, wmul, Nat.div_mul_cancel (Nat.dvd_of_mod_eq_zero hrem),
      Nat.mod_eq_of_lt hx, wadd, Nat.add_zero, Nat.mod_eq_of_lt hx]
  · rw [if_neg hrem]
    have hrlt : x % 10 ^ d < 10 ^ d := Nat.mod_lt _ hpos
    have hd1 : 1 ≤ d := by
      rcases Nat.eq_zero_or_pos d with rfl | h
      · simp at hrlt; omega
      · exact h
    have hLlen : (leftPad d (toDec (x % 10 ^ d))).length = d :=
      leftPad_length (toDec_length_le hrlt hd1)
    have hLval : digitsVal (leftPad d (toDec (x % 10 ^ d))) = x % 10 ^ d := by
      rw [digitsVal_leftPad, digitsVal_toDec]
    have hLdig := leftPad_all_digit (d := d) (toDec_all_digit (x % 10 ^ d))
    obtain ⟨hLdec, hLle⟩ := trimZeros_spec (leftPad d (toDec (x % 10 ^ d)))
    set t := trimZeros (leftPad d (toDec (x % 10 ^ d))) with ht
    set m := (leftPad d (toDec (x % 10 ^ d))).length - t.length with hm
    have htdig : ∀ c ∈ t, c.isDigit = true :=
      fun c hc => hLdig c (trimZeros_subset _ c hc)
    have htnd : ('.' : Char) ∉ t :=
      fun hmem => isDigit_ne_dot (htdig _ hmem) rfl
    have htval : digitsVal t * 10 ^ m = x % 10 ^ d := by
      conv_rhs => rw [← hLval]
      conv_rhs => rw [hLdec]
      rw [digitsVal_append, digitsVal_replicate_zero, List.length_replicate]
      omega
    have htne : t ≠ [] := by
      intro h0
      rw [h0] at htval
      simp [digitsVal] at htval
      omega
    have htlen : t.length ≤ d := hLlen ▸ hLle
    have hmd : d - t.length = m := by omega
    have htb : digitsVal t < u256Bound := by
      have h1 : (1 : Nat) ≤ 10 ^ m := Nat.one_le_pow _ _ (by norm_num)
      have : digitsVal t ≤ x % 10 ^ d := by
        calc digitsVal t = digitsVal t * 1 := by ring
        _ ≤ digitsVal t * 10 ^ m := Nat.mul_le_mul_left _ h1
        _ = x % 10 ^ d := htval
      omega
    rw [parse_amount, splitDot_append_dot _ (dot_not_mem_toDec _),
      splitDot_no_dot htnd]
    have hw : x / 10 ^ d < u256Bound := lt_of_le_of_lt (Nat.div_le_self _ _) hx
    simp only [List.headD_cons, u256FromStr_toDec hw, List.length_cons,
      List.length_singleton, List.getD_cons_succ, List.getD_cons_zero]
    rw [if_pos (by omega), if_neg (by omega),
      u256FromStr_digits htne htdig htb]
    show Except.ok (wadd (wmul (x / 10 ^ d) (wpow10 d))
      (wmul (digitsVal t) (wpow10 (d - t.length)))) = Except.ok x
    have hmpow : (10 : Nat) ^ m < u256Bound :=
      lt_of_le_of_lt (Nat.pow_le_pow_right (by norm_num) (by omega)) (pow10_lt_u256 (le_refl 77))
    have h2 : wmul (digitsVal t) (wpow10 (d - t.length)) = x % 10 ^ d := by
      rw [hmd, wpow10, Nat.mod_eq_of_lt hmpow, wmul, htval, Nat.mod_eq_of_lt (by omega)]
    have h1 : wmul (x / 10 ^ d) (wpow10 d) = x / 10 ^ d * 10 ^ d := by
      rw [hw10, wmul, Nat.mod_eq_of_lt
        (lt_of_le_of_lt (Nat.div_mul_le_self x _) hx)]
    rw [h2, h1, wadd]
    have hsum : x / 10 ^ d * 10 ^ d + x % 10 ^ d = x := by
      rw [Nat.mul_comm]
      exact Nat.div_add_mod x (10 ^ d)
    rw [hsum, Nat.mod_eq_of_lt hx]

/-! ## Claim theorems -/

/-- **C1 counterexample.** With both whitelists empty, a Sell order is **not**
supported: `is_supported_order` has no accept-any mode, refuting the claim
that empty whitelists accept every token. -/
theorem is_supported_order_empty_whitelists_counterexample :
    is_supported_order [] []
      { uid := 1, side := Side.sell,
        sell := { token := 1, amount := 1000 },
        buy := { token := 2, amount := 990 } } = false := rfl

/-- **C1 (amended).** An order is eligible iff it is Sell-side **and** its
sell token is in the LP-token whitelist **and** its buy token is in the
allowed-buy-token whitelist; an empty whitelist accepts nothing. -/
theorem is_supported_order_iff (lpTokens allowedBuyTokens : List Nat)
    (order : Order) :
    is_supported_order lpTokens allowedBuyTokens order = true ↔
      order.side = Side.sell ∧ order.sell.token ∈ lpTokens ∧
        order.buy.token ∈ allowedBuyTokens := by
  unfold is_supported_order
  split_ifs with h1 h2 h3 <;>
    simp_all [List.elem_iff]

/-- **C4 counterexample.** `parse_amount` accepts a string with two dots:
`parse("1.2.3", 1) = Ok(12)` (the claim predicts a `Parse` error for every
input with more than one `'.'`). -/
theorem parse_amount_multi_dot_counterexample :
    parse_amount ("1.2.3".toList) 1 = .ok 12 := rfl

/-- **C4 (amended).** `parse_amount` splits on every `'.'` but consults only
the first two segments: appending a further `'.'`-separated tail to a string
that already contains a `'.'` does not change the result (in particular such
inputs are not rejected); errors come only from the whole part or the first
fractional segment failing `U256` numeral parsing, while the final
`whole · 10^d + frac` combination uses wrapping, not checked, arithmetic. -/
theorem parse_amount_drops_later_segments (s t u : List Char) (d : Nat)
    (hs : ('.' : Char) ∉ s) (ht : ('.' : Char) ∉ t) :
    parse_amount (s ++ '.' :: (t ++ '.' :: u)) d = parse_amount (s ++ '.' :: t) d := by
  rw [parse_amount, parse_amount, splitDot_append_dot _ hs, splitDot_append_dot _ hs,
    splitDot_append_dot _ ht, splitDot_no_dot ht]
  cases hw : u256FromStr s with
  | none => simp only [List.headD_cons, hw]
  | some w =>
    simp only [List.headD_cons, hw, List.length_cons, List.getD_cons_succ,
      List.getD_cons_zero]
    have h1 : (splitDot u).length + 1 + 1 > 1 := by omega
    have h2 : ([] : List (List Char)).length + 1 + 1 > 1 := by omega
    rw [if_pos h1, if_pos h2]

/-- Witness for C4's amended theorem at `s = "1"`, `t = "2"`, `u = "3"`,
`d = 1`. -/
theorem parse_amount_drops_later_segments_witness :
    parse_amount (['1'] ++ '.' :: (['2'] ++ '.' :: ['3'])) 1 =
      parse_amount (['1'] ++ '.' :: ['2']) 1 :=
  parse_amount_drops_later_segments ['1'] ['2'] ['3'] 1 (by decide) (by decide)

/-- Witness for C5 at `x = 1_500_000_000_000_000_000`, `d = 18`
(the spec's boundary example `format(1.5e18, 18) = "1.5"`). -/
theorem parse_format_amount_roundtrip_witness :
    parse_amount (format_amount 1500000000000000000 18) 18 =
      .ok 1500000000000000000 :=
  parse_format_amount_roundtrip 1500000000000000000 18
    (by norm_num [u256Bound]) (by norm_num)

/-- **C7.** `calculate_deviation_bps` computes the claimed saturating
`(max − min) · 10_000 / min` formula (with `u32::MAX` on zero inputs), and is
symmetric in its two arguments. -/
theorem calculate_deviation_bps_spec_and_symm (a b : Nat)
    (ha : a < u256Bound) (hb : b < u256Bound) :
    calculate_deviation_bps a b = deviation_spec a b ∧
      calculate_deviation_bps a b = calculate_deviation_bps b a := by
  have hspec : ∀ x y : Nat, calculate_deviation_bps x y = deviation_spec x y := by
    intro x y
    simp only [calculate_deviation_bps, deviation_spec]
    by_cases h0 : x = 0 ∨ y = 0
    · rw [if_pos h0, if_pos h0]
    · rw [if_neg h0, if_neg h0]
      rcases Nat.lt_or_ge y x with hxy | hxy
      · rw [if_pos hxy, Nat.max_eq_left hxy.le, Nat.min_eq_right hxy.le, min_def]
      · rw [if_neg (Nat.not_lt.2 hxy), Nat.max_eq_right hxy, Nat.min_eq_left hxy,
          min_def]
  refine ⟨hspec a b, ?_⟩
  rw [hspec a b, hspec b a]
  simp only [deviation_spec]
  by_cases h0 : a = 0 ∨ b = 0
  · rw [if_pos h0, if_pos (by tauto)]
  · rw [if_neg h0, if_neg (by tauto), Nat.max_comm b a, Nat.min_comm b a]

/-- Witness for C7 at the spec's deviation-rejection example
`a = 1_000_000`, `b = 1_020_000`. -/
theorem calculate_deviation_bps_spec_and_symm_witness :
    calculate_deviation_bps 1000000 1020000 = deviation_spec 1000000 1020000 ∧
      calculate_deviation_bps 1000000 1020000 =
        calculate_deviation_bps 1020000 1000000 :=
  calculate_deviation_bps_spec_and_symm 1000000 1020000
    (by norm_num [u256Bound]) (by norm_num [u256Bound])

/-- **C8.** Slippage monotonicity: whenever both settings are in the defined
(non-panicking) range, a larger slippage setting never yields a larger
minimum output. -/
theorem apply_slippage_monotone (x s₁ s₂ v₁ v₂ : Nat) (h : s₁ ≤ s₂)
    (h₁ : apply_slippage s₁ x = some v₁) (h₂ : apply_slippage s₂ x = some v₂) :
    v₂ ≤ v₁ := by
  unfold apply_slippage at h₁ h₂
  split_ifs at h₂ with hs₂
  · rw [if_pos (by omega)] at h₁
    have hv₁ : v₁ = satMul x (10000 - s₁) / 10000 := by
      exact (Option.some_inj.1 h₁).symm
    have hv₂ : v₂ = satMul x (10000 - s₂) / 10000 := by
      exact (Option.some_inj.1 h₂).symm
    rw [hv₁, hv₂]
    apply Nat.div_le_div_right
    apply min_le_min _ le_rfl
    exact Nat.mul_le_mul_left _ (by omega)

/-- Witness for C8 at `x = 1_000_000`, `s₁ = 100`, `s₂ = 200`. -/
theorem apply_slippage_monotone_witness :
    apply_slippage 100 1000000 = some 990000 ∧
      apply_slippage 200 1000000 = some 980000 ∧ (980000 : Nat) ≤ 990000 :=
  ⟨by decide, by decide,
    apply_slippage_monotone 1000000 100 200 990000 980000 (by norm_num)
      (by decide) (by decide)⟩

/-- **C10.** `apply_slippage` avoids its underflow/panic branch exactly when
`slippage_bps ≤ 10_000`, and the configuration loader passes any `u32`
`slippage-bps` through unchanged, enforcing no bound. -/
theorem apply_slippage_total_iff_config_passthrough :
    (∀ slippageBps amount : Nat,
        (apply_slippage slippageBps amount).isSome ↔ slippageBps ≤ 10000) ∧
      ∀ c : FileConfig, (load_config c).slippageBps = c.slippageBps := by
  refine ⟨fun s x => ?_, fun c => rfl⟩
  unfold apply_slippage
  split_ifs with h <;> simp [h]

/-- Helper: `resolve_sell_token_price` fails only with `NoPriceForSellToken`. -/
theorem resolve_sell_token_price_error {refPrice : Option Nat}
    {priceResult : Except PriceError Nat} {e : SolveError}
    (h : resolve_sell_token_price refPrice priceResult = .error e) :
    e = .noPriceForSellToken := by
  cases refPrice with
  | none =>
    cases priceResult with
    | ok p => simp [resolve_sell_token_price] at h
    | error pe => simpa [resolve_sell_token_price] using h.symm
  | some p => simp [resolve_sell_token_price] at h

/-- Helper: once the oracle fetch, on-chain check, deviation bound and
limit-price gate have passed, `solve_order` reduces to the price/fee/assembly
tail. -/
theorem solve_order_past_gate (slippageBps maxDev settlement : Nat)
    (order : Order) (env : OrderEnv) (route : Route) (onchainOut minOut : Nat)
    (happ : apply_slippage slippageBps onchainOut = some minOut)
    (hroute : env.routeResult = .ok route)
    (honchain : env.onchainResult = .ok onchainOut)
    (hdev : calculate_deviation_bps route.expected_output onchainOut ≤ maxDev)
    (hge : ¬ minOut < order.buy.amount) :
    solve_order slippageBps maxDev settlement order env =
      match resolve_sell_token_price env.refPrice env.priceResult with
      | .error e => some (.error e)
      | .ok price =>
        match env.etherValue price (satMul env.estimatedGas env.gasPrice) with
        | none => some (.error .feeCalculation)
        | some feeInSellToken =>
          match into_solution
              { order := order
                input := { token := order.sell.token, amount := order.sell.amount }
                output := { token := order.buy.token, amount := minOut }
                interaction := build_exchange_interaction route order.sell.token
                  order.sell.amount order.buy.token minOut settlement
                gas := env.estimatedGas }
              feeInSellToken env.solutionAccepted with
          | none => some (.error .solutionConstruction)
          | some sol => some (.ok sol) := by
  unfold solve_order
  rw [hroute]
  simp only []
  rw [honchain]
  simp only []
  rw [if_neg (by omega), happ]
  simp only []
  rw [if_neg hge]

/-- Helper: a solution accepted by `into_solution` carries exactly the
single-order bundle's fields and the fee. -/
theorem into_solution_fields {single : Single} {fee : Nat} {acc : Bool}
    {sol : Solution} (h : into_solution single fee acc = some sol) :
    sol.order = single.order ∧ sol.input = single.input ∧
      sol.output = single.output ∧ sol.interaction = single.interaction ∧
      sol.gas = single.gas ∧ sol.fee = fee := by
  cases acc with
  | false => simp [into_solution] at h
  | true =>
    rw [into_solution, if_pos rfl] at h
    injection h with h'
    subst h'
    exact ⟨rfl, rfl, rfl, rfl, rfl, rfl⟩

/-- **C6.** With the pipeline reaching the slippage step (route fetched,
on-chain check passed, deviation within bound, slippage setting in range),
the slippage floor is `min_out = saturating_mul(on_chain_out, 10_000 −
slippage_bps) / 10_000` (as computed by `apply_slippage`), the order fails
with `InsufficientOutput` iff `min_out < order.buy.amount`, and otherwise any
emitted solution carries the directive built with output amount `min_out`. -/
theorem solve_order_insufficient_output_iff (slippageBps maxDev settlement : Nat)
    (order : Order) (env : OrderEnv) (route : Route) (onchainOut : Nat)
    (hs : slippageBps ≤ 10000)
    (hroute : env.routeResult = .ok route)
    (honchain : env.onchainResult = .ok onchainOut)
    (hdev : calculate_deviation_bps route.expected_output onchainOut ≤ maxDev) :
    apply_slippage slippageBps onchainOut =
        some (satMul onchainOut (10000 - slippageBps) / 10000) ∧
    (solve_order slippageBps maxDev settlement order env =
        some (.error (.insufficientOutput
          (satMul onchainOut (10000 - slippageBps) / 10000) order.buy.amount)) ↔
      satMul onchainOut (10000 - slippageBps) / 10000 < order.buy.amount) ∧
    (∀ sol, solve_order slippageBps maxDev settlement order env = some (.ok sol) →
      sol.output.amount = satMul onchainOut (10000 - slippageBps) / 10000 ∧
      sol.output.token = order.buy.token ∧
      sol.interaction = build_exchange_interaction route order.sell.token
        order.sell.amount order.buy.token
        (satMul onchainOut (10000 - slippageBps) / 10000) settlement) := by
  set minOut := satMul onchainOut (10000 - slippageBps) / 10000 with hminOut
  have happ : apply_slippage slippageBps onchainOut = some minOut := by
    unfold apply_slippage
    rw [if_pos hs]
  refine ⟨happ, ?_, ?_⟩
  · by_cases hlt : minOut < order.buy.amount
    · refine ⟨fun _ => hlt, fun _ => ?_⟩
      unfold solve_order
      rw [hroute]
      simp only []
      rw [honchain]
      simp only []
      rw [if_neg (by omega), happ]
      simp only []
      rw [if_pos hlt]
    · refine ⟨fun h => ?_, fun h => absurd h hlt⟩
      exfalso
      rw [solve_order_past_gate slippageBps maxDev settlement order env route
        onchainOut minOut happ hroute honchain hdev hlt] at h
      split at h
      · rename_i e heq
        have := resolve_sell_token_price_error heq
        subst this
        simp at h
      · rename_i price heq
        split at h
        · simp at h
        · rename_i fee hev
          split at h
          · simp at h
          · simp at h
  · intro sol h
    by_cases hlt : minOut < order.buy.amount
    · exfalso
      unfold solve_order at h
      rw [hroute] at h
      simp only [] at h
      rw [honchain] at h
      simp only [] at h
      rw [if_neg (by omega), happ] at h
      simp only [] at h
      rw [if_pos hlt] at h
      simp at h
    · rw [solve_order_past_gate slippageBps maxDev settlement order env route
        onchainOut minOut happ hroute honchain hdev hlt] at h
      split at h
      · simp at h
      · rename_i price heq
        split at h
        · simp at h
        · rename_i fee hev
          split at h
          · simp at h
          · rename_i sol' hsol'
            have hfields := into_solution_fields hsol'
            have hss : sol' = sol := by
              injection h with h'
              injection h' with h''
            subst hss
            exact ⟨by rw [hfields.2.2.1], by rw [hfields.2.2.1],
              by rw [hfields.2.2.2.1]⟩

/-- **C3.** With no auction reference price for the sell token and the
pipeline otherwise reaching the fee step, `solve_order` resolves the
sell-token price via the price client's TTL-cached `get_eth_price`, and the
order fails with `NoPriceForSellToken` exactly when that fallback fails;
moreover `get_eth_price` serves a cache entry no older than 60 seconds
directly. -/
theorem solve_order_price_fallback (slippageBps maxDev settlement : Nat)
    (order : Order) (env : OrderEnv) (route : Route) (onchainOut minOut : Nat)
    (fetch : Nat → Except PriceError Nat) (cache : Nat → Option (Nat × Nat))
    (now : Nat)
    (hroute : env.routeResult = .ok route)
    (honchain : env.onchainResult = .ok onchainOut)
    (hdev : calculate_deviation_bps route.expected_output onchainOut ≤ maxDev)
    (hmin : apply_slippage slippageBps onchainOut = some minOut)
    (hge : ¬ minOut < order.buy.amount)
    (hrp : env.refPrice = none) :
    (solve_order_with_price_client slippageBps maxDev settlement order env
        fetch cache now = some (.error .noPriceForSellToken) ↔
      ∃ e, get_eth_price fetch cache now order.sell.token = .error e) ∧
    (∀ price fetchedAt, cache order.sell.token = some (price, fetchedAt) →
      now - fetchedAt ≤ 60 →
      get_eth_price fetch cache now order.sell.token = .ok price) := by
  constructor
  · unfold solve_order_with_price_client
    rw [solve_order_past_gate slippageBps maxDev settlement order
      { env with priceResult := get_eth_price fetch cache now order.sell.token }
      route onchainOut minOut hmin hroute honchain hdev hge]
    simp only [hrp]
    cases heth : get_eth_price fetch cache now order.sell.token with
    | error e =>
      simp [heth, resolve_sell_token_price]
    | ok p =>
      simp only [heth, resolve_sell_token_price]
      constructor
      · intro h
        exfalso
        split at h
        · simp at h
        · rename_i fee hev
          split at h
          · simp at h
          · simp at h
      · rintro ⟨e, he⟩
        exact absurd he (by simp)
  · intro price fetchedAt hc httl
    simp [get_eth_price, cached_price, hc, httl]

/-- Helper: a successful `solve_order` emits a solution wrapping exactly the
order it was called on. -/
theorem solve_order_ok_order {slippageBps maxDev settlement : Nat}
    {order : Order} {env : OrderEnv} {sol : Solution}
    (h : solve_order slippageBps maxDev settlement order env = some (.ok sol)) :
    sol.order = order := by
  simp only [solve_order] at h
  repeat' split at h
  all_goals
    first
    | (rename_i sol' hsol'
       have hord := (into_solution_fields hsol').1
       have hss : sol' = sol := by
         injection h with h'
         injection h'
       subst hss
       exact hord)
    | (simp at h)

/-- Helper for C9: over any tail of the order list starting at index `i`, the
emitted ids are at least `i`, strictly increasing, and each solution's id
points back at its source order. -/
theorem solve_loop_ids (slippageBps maxDev settlement : Nat)
    (lpTokens allowedBuyTokens : List Nat) (envOf : Nat → OrderEnv) :
    ∀ (orders : List Order) (i : Nat),
      List.Chain' (fun a b => a.id < b.id)
        (solve_loop slippageBps maxDev settlement lpTokens allowedBuyTokens
          envOf i orders) ∧
      ∀ sol ∈ solve_loop slippageBps maxDev settlement lpTokens allowedBuyTokens
          envOf i orders,
        i ≤ sol.id ∧ orders[sol.id - i]? = some sol.order := by
  intro orders
  induction orders with
  | nil =>
    intro i
    constructor
    · simp [solve_loop]
    · intro sol h
      simp [solve_loop] at h
  | cons o rest ih =>
    intro i
    rw [solve_loop]
    by_cases hsup : is_supported_order lpTokens allowedBuyTokens o = true
    · rw [if_pos hsup]
      cases hres : solve_order slippageBps maxDev settlement o (envOf i) with
      | none =>
        constructor
        · simp
        · intro sol h
          simp at h
      | some r =>
        cases r with
        | error e =>
          obtain ⟨ihc, ihm⟩ := ih (i + 1)
          refine ⟨ihc, fun sol h => ?_⟩
          obtain ⟨h1, h2⟩ := ihm sol h
          refine ⟨by omega, ?_⟩
          have hsucc : sol.id - i = (sol.id - (i + 1)) + 1 := by omega
          rw [hsucc, List.getElem?_cons_succ]
          exact h2
        | ok sol0 =>
          obtain ⟨ihc, ihm⟩ := ih (i + 1)
          constructor
          · rw [List.chain'_cons']
            refine ⟨fun b hb => ?_, ihc⟩
            have hbmem : b ∈ solve_loop slippageBps maxDev settlement lpTokens
                allowedBuyTokens envOf (i + 1) rest := List.mem_of_mem_head? hb
            have := (ihm b hbmem).1
            show (with_id sol0 i).id < b.id
            simp only [with_id]
            omega
          · intro sol h
            rcases List.mem_cons.1 h with rfl | hmem
            · refine ⟨Nat.le_refl _, ?_⟩
              show (o :: rest)[(with_id sol0 i).id - i]? = some (with_id sol0 i).order
              simp only [with_id, Nat.sub_self]
              rw [List.getElem?_cons_zero]
              rw [solve_order_ok_order hres]
            · obtain ⟨h1, h2⟩ := ihm sol hmem
              refine ⟨by omega, ?_⟩
              have hsucc : sol.id - i = (sol.id - (i + 1)) + 1 := by omega
              rw [hsucc, List.getElem?_cons_succ]
              exact h2
    · rw [if_neg hsup]
      obtain ⟨ihc, ihm⟩ := ih (i + 1)
      refine ⟨ihc, fun sol h => ?_⟩
      obtain ⟨h1, h2⟩ := ihm sol h
      refine ⟨by omega, ?_⟩
      have hsucc : sol.id - i = (sol.id - (i + 1)) + 1 := by omega
      rw [hsucc, List.getElem?_cons_succ]
      exact h2

/-- **C9.** The driver emits solutions with strictly increasing ids, and each
solution's id is the 0-based index of its source order in the auction's order
list (skipped and failed orders leave gaps without disturbing the order). -/
theorem solve_auction_ids (slippageBps maxDev settlement : Nat)
    (lpTokens allowedBuyTokens : List Nat) (envOf : Nat → OrderEnv)
    (orders : List Order) :
    List.Chain' (fun a b => a.id < b.id)
      (solve_auction slippageBps maxDev settlement lpTokens allowedBuyTokens
        envOf orders) ∧
    ∀ sol ∈ solve_auction slippageBps maxDev settlement lpTokens
        allowedBuyTokens envOf orders,
      orders[sol.id]? = some sol.order := by
  obtain ⟨hc, hm⟩ := solve_loop_ids slippageBps maxDev settlement lpTokens
    allowedBuyTokens envOf orders 0
  refine ⟨hc, fun sol h => ?_⟩
  have := (hm sol h).2
  simpa using this

/-- **C2 counterexample.** A route option with the negative swap parameter
`-1` is **not** rejected: `parse_route` returns a normalized route whose
`swap_params[0][0]` is the two's-complement cast `2^64 - 1`, refuting the
claim that negative entries produce a `Parse` error. -/
theorem parse_route_negative_swap_param_counterexample :
    parse_route (negParamResponse (-1)) tricryptoAddr usdtAddr 6 =
      .ok { route := [tricryptoAddr, tricryptoAddr, usdtAddr, 0, 0, 0, 0, 0, 0, 0, 0],
            swap_params := [[18446744073709551615, 0, 6, 30, 3],
              [0, 0, 0, 0, 0], [0, 0, 0, 0, 0], [0, 0, 0, 0, 0], [0, 0, 0, 0, 0]],
            pools := [0, 0, 0, 0, 0],
            expected_output := 1000000 } := by rfl

/-- **C2 (amended).** Signed swap parameters are never rejected: each entry
`k` (negative ones included) is cast two's-complement to unsigned 64 bits,
storing `k mod 2^64` in the `swap_params` table, and route normalization
succeeds whenever the rest of the option is valid. -/
theorem parse_route_casts_negative_swap_params (k : Int) :
    parse_route (negParamResponse k) tricryptoAddr usdtAddr 6 =
      .ok { route := [tricryptoAddr, tricryptoAddr, usdtAddr, 0, 0, 0, 0, 0, 0, 0, 0],
            swap_params := [[i64CastU64 k, 0, 6, 30, 3],
              [0, 0, 0, 0, 0], [0, 0, 0, 0, 0], [0, 0, 0, 0, 0], [0, 0, 0, 0, 0]],
            pools := [0, 0, 0, 0, 0],
            expected_output := 1000000 } := by
  have hin : addrFromStr ("0xf5f5B97624542D72A9E06f04804Bf81baA15e2B4".toList) =
      some tricryptoAddr := rfl
  have hout : addrFromStr ("0xdAC17F958D2ee523a2206206994597C13D831ec7".toList) =
      some usdtAddr := rfl
  have hamt : parse_amount ("1".toList) 6 = .ok 1000000 := rfl
  simp only [String.toList, String.data] at hin hout hamt
  have h0 : i64CastU64 0 = 0 := by decide
  have h6 : i64CastU64 6 = 6 := by decide
  have h30 : i64CastU64 30 = 30 := by decide
  have h3 : i64CastU64 3 = 3 := by decide
  have hfill : fillSwapParams
      [[0, 0, 0, 0, 0], [0, 0, 0, 0, 0], [0, 0, 0, 0, 0], [0, 0, 0, 0, 0],
        [0, 0, 0, 0, 0]] 0 [k, 0, 6, 30, 3]
      = [[i64CastU64 k, 0, 6, 30, 3], [0, 0, 0, 0, 0], [0, 0, 0, 0, 0],
          [0, 0, 0, 0, 0], [0, 0, 0, 0, 0]] := by
    simp [fillSwapParams, List.enum, List.enumFrom, List.set, h0, h6, h30, h3]
  have hval : validate_route
      [tricryptoAddr, tricryptoAddr, usdtAddr, 0, 0, 0, 0, 0, 0, 0, 0]
      [[i64CastU64 k, 0, 6, 30, 3], [0, 0, 0, 0, 0], [0, 0, 0, 0, 0],
        [0, 0, 0, 0, 0], [0, 0, 0, 0, 0]]
      tricryptoAddr usdtAddr = .ok () := by
    unfold validate_route
    rw [if_neg (by decide), if_neg (by simp), if_neg (by decide)]
  simp [parse_route, negParamResponse, parse_route_steps, parse_route_step,
    hin, hout, hamt, hfill, hval, List.set, zeroAddrLiteral]

/-- Witness for C6 at on-chain output 1_000_000, slippage 100 bps, limit
989_000 (spec scenario 4). -/
theorem solve_order_insufficient_output_iff_witness :
    apply_slippage 100 1000000 = some (satMul 1000000 (10000 - 100) / 10000) ∧
    (solve_order 100 50 3 c6Order c6Env =
        some (.error (.insufficientOutput
          (satMul 1000000 (10000 - 100) / 10000) c6Order.buy.amount)) ↔
      satMul 1000000 (10000 - 100) / 10000 < c6Order.buy.amount) ∧
    (∀ sol, solve_order 100 50 3 c6Order c6Env = some (.ok sol) →
      sol.output.amount = satMul 1000000 (10000 - 100) / 10000 ∧
      sol.output.token = c6Order.buy.token ∧
      sol.interaction = build_exchange_interaction c6Route c6Order.sell.token
        c6Order.sell.amount c6Order.buy.token
        (satMul 1000000 (10000 - 100) / 10000) 3) :=
  solve_order_insufficient_output_iff 100 50 3 c6Order c6Env c6Route 1000000
    (by norm_num) rfl rfl (by decide)

/-- Witness for C3: empty cache, failing fetch, no reference price. -/
theorem solve_order_price_fallback_witness :
    (solve_order_with_price_client 100 50 3 c3Order c3Env c3Fetch c3Cache 0 =
        some (.error .noPriceForSellToken) ↔
      ∃ e, get_eth_price c3Fetch c3Cache 0 c3Order.sell.token = .error e) ∧
    (∀ price fetchedAt, c3Cache c3Order.sell.token = some (price, fetchedAt) →
      0 - fetchedAt ≤ 60 →
      get_eth_price c3Fetch c3Cache 0 c3Order.sell.token = .ok price) :=
  solve_order_price_fallback 100 50 3 c3Order c3Env c3Route 1000000 990000
    c3Fetch c3Cache 0 rfl rfl (by decide) (by decide) (by decide) rfl

end CurveLp
